import Mathlib

/-!
Verification development for the ssbench worker engine
(`ssbench/worker.py`): a shallow embedding of the job-processing
engine — the `ChunkedReader` payload generator, the per-endpoint
connection pool with its scoped-acquisition context manager, the
`ignoring_http_responses` retry loop, the job dispatcher
`handle_job` with its fixed handler mapping, the result-record
construction (`add_dicts`, `put_results`,
`put_results_from_response`), and the intake loop's lazy pool
provisioning — together with theorems settling the specified
properties of those components.

Modelling conventions:
* Python dict values occurring in job/result records are embedded as
  the inductive `Val`; result records are association lists with
  Python's `dict.update` semantics (`dictSet`/`dictUpdate`).
* The external storage client is an oracle `env : Nat → FnOutcome ρ`
  giving the outcome of the `k`-th invocation of the wrapped
  operation: a truthy result, a falsy/empty result, a socket-level
  error, a storage-client error with an HTTP status, or a
  connection-level fault (`CannotSendRequest`/`HTTPConnectionClosed`
  raised while the borrowed connection is in use).
* Connections are identified by `Nat` ids; a pool-local counter
  `nextId` models the factory creating fresh connections, so
  "freshly created" is expressible as "id not previously in the
  pool".
* `time.time()` and the worker id are opaque scalars carried in
  `Ctx`.
-/

/-- Embedded Python scalar values as they occur in job and result
records: strings, ints (sizes, ids, timestamps), booleans, the float
literal `0.0` used by the no-op handler, and `None`. -/
inductive Val where
  | vStr (s : String)
  | vNat (n : Nat)
  | vBool (b : Bool)
  | vFloatZero
  | vNone
deriving DecidableEq, Repr

/-- A Python dict with string keys, as an insertion-ordered
association list (later `dictSet`s override in place, as
`dict.update` does). -/
abbrev Dict := List (String × Val)

/-- Set one key, replacing in place if present (Python dict item
assignment). -/
def dictSet : Dict → String → Val → Dict
  | [], k, v => [(k, v)]
  | (k', v') :: rest, k, v =>
    if k' = k then (k, v) :: rest else (k', v') :: dictSet rest k v

/-- `d.update(u)` for Python dicts. -/
def dictUpdate (d u : Dict) : Dict :=
  u.foldl (fun a kv => dictSet a kv.1 kv.2) d

/-- Lookup (`d.get(k)`), returning the value stored under the first
(unique) occurrence of the key. -/
def dictGet : Dict → String → Option Val
  | [], _ => Option.none
  | (k', v) :: rest, k => if k' = k then some v else dictGet rest k

/-- `add_dicts(*args, **kwargs)`: start from an empty dict, update
with each positional dict in order, then with the keyword pairs. -/
def add_dicts (args : List Dict) (kwargs : Dict) : Dict :=
  dictUpdate (args.foldl dictUpdate []) kwargs

/-! ### ChunkedReader -/

/-- `ChunkedReader(letter, size)`: the constructor stores `size` and
`letter` and precomputes `chunk = letter * 2**21`. -/
structure ChunkedReader where
  size : Nat
  letter : Char
  chunk : List Char
deriving DecidableEq, Repr

/-- `ChunkedReader.__init__`. -/
def ChunkedReader.init (letter : Char) (size : Nat) : ChunkedReader :=
  { size := size, letter := letter, chunk := List.replicate (2 ^ 21) letter }

/-- `ChunkedReader.read(chunk_size)` returns `self.chunk[:chunk_size]`.
The source mutates no state in `read`, so the reader is embedded as a
pure value and `read` as a pure function. -/
def ChunkedReader.read (r : ChunkedReader) (chunk_size : Nat) : List Char :=
  r.chunk.take chunk_size

/-! ### Connection pool and the scoped `connection` context manager -/

/-- State of one endpoint's `ConnectionPool` (a `gevent.queue.Queue`
with a `create` factory). `avail` is the queue of idle connection
ids in FIFO order; `nextId` models the factory (each `create()`
yields the next fresh id); `closed` records connections that were
`close()`d and discarded; `capacity` is the queue's `maxsize`. -/
structure PoolState where
  capacity : Nat
  avail : List Nat
  nextId : Nat
  closed : List Nat
deriving DecidableEq, Repr

/-- `ConnectionPool.__init__(factory, maxsize)`: a queue of capacity
`maxsize`, eagerly filled with `maxsize` freshly created connections
(ids `0, …, maxsize - 1`). -/
def ConnectionPool.init (maxsize : Nat) : PoolState :=
  { capacity := maxsize, avail := List.range maxsize, nextId := maxsize, closed := [] }

/-- How the body of a `with worker.connection(url) as conn:` block
ends: normal completion, a `CannotSendRequest`/`HTTPConnectionClosed`
fault, or any other exception. -/
inductive BodyEnd where
  | normal
  | connBroken
  | otherExc
deriving DecidableEq, Repr

/-- Result of one use of the scoped `connection` context manager. -/
structure ScopeResult where
  pool : PoolState
  /-- Whether an exception propagates out of the `with` block to its
  caller (the generator suppresses the two connection-fault types,
  and re-raises anything else after its `finally`). -/
  raised : Bool
  /-- The connection taken by `get()` (`Option.none` if the pool was
  empty: the real queue would block cooperatively; the theorems
  assume a non-empty pool). -/
  borrowed : Option Nat
  /-- The connections `put` back by the `finally` clause. -/
  returned : List Nat
deriving DecidableEq, Repr

/-- `Worker.connection(storage_url)`: `get()` a connection, run the
body; on `CannotSendRequest`/`HTTPConnectionClosed` close the
borrowed connection (best-effort) and `create()` a replacement; the
`finally` always `put`s exactly one connection back. A suppressed
connection fault does not propagate; any other exception does. -/
def connection_scope (p : PoolState) (b : BodyEnd) : ScopeResult :=
  match p.avail with
  | [] => { pool := p, raised := false, borrowed := Option.none, returned := [] }
  | hc :: rest =>
    match b with
    | .normal =>
        { pool := { p with avail := rest ++ [hc] },
          raised := false, borrowed := some hc, returned := [hc] }
    | .connBroken =>
        { pool := { p with avail := rest ++ [p.nextId], nextId := p.nextId + 1,
                           closed := hc :: p.closed },
          raised := false, borrowed := some hc, returned := [p.nextId] }
    | .otherExc =>
        { pool := { p with avail := rest ++ [hc] },
          raised := true, borrowed := some hc, returned := [hc] }

/-- The pool after one scoped use. -/
def scope_pool (p : PoolState) (b : BodyEnd) : PoolState :=
  (connection_scope p b).pool

/-! ### The retry loop `ignoring_http_responses` -/

/-- Outcome of one invocation of the wrapped storage operation `fn`
(inside the scoped connection): a truthy result, a falsy/empty
result (`if fn_results:` fails), a `socket.error`, a
`client.ClientException` with an HTTP status, or a connection fault
raised while using the borrowed connection (swallowed by the
context manager, leaving `fn_results = None`). -/
inductive FnOutcome (ρ : Type) where
  | ok (result : ρ)
  | empty
  | sockErr
  | connFault
  | clientErr (http_status : Nat)
deriving DecidableEq, Repr

/-- Terminal outcome of `ignoring_http_responses`, carrying the total
number of invocations of the wrapped operation that occurred. -/
inductive RetryOut (ρ : Type) where
  | ok (result : ρ) (invocations : Nat)
  | exhaustedRaise (invocations : Nat)
  | sockRaise (invocations : Nat)
  | clientRaise (http_status : Nat) (invocations : Nat)
deriving DecidableEq, Repr

/-- Total invocations recorded in a `RetryOut`. -/
def RetryOut.invocations : RetryOut ρ → Nat
  | .ok _ n => n
  | .exhaustedRaise n => n
  | .sockRaise n => n
  | .clientRaise _ n => n

/-- The `while True:` loop of `Worker.ignoring_http_responses`, from
loop state `tries` (failed attempts so far) about to make invocation
number `k` (0-based), with pool `p`. Each iteration runs `fn` inside
the scoped connection context:
* truthy result: `break` and return it;
* falsy result, or a connection fault swallowed by the context
  manager (leaving `fn_results = None`): `tries += 1`, raise the
  results-exhausted `Exception` once `tries > max_retries`;
* `socket.error`: `tries += 1`, re-raise once `tries > max_retries`;
* `ClientException`: `tries += 1`, retry only if its status is in
  `statuses` and `tries <= max_retries`, else re-raise. -/
def retryLoop (statuses : List Nat) (max_retries : Nat) (env : Nat → FnOutcome ρ)
    (tries k : Nat) (p : PoolState) : RetryOut ρ × PoolState :=
  match env k with
  | .ok r => (.ok r (k + 1), scope_pool p .normal)
  | .empty =>
      if _h : tries + 1 > max_retries then
        (.exhaustedRaise (k + 1), scope_pool p .normal)
      else
        retryLoop statuses max_retries env (tries + 1) (k + 1) (scope_pool p .normal)
  | .connFault =>
      if _h : tries + 1 > max_retries then
        (.exhaustedRaise (k + 1), scope_pool p .connBroken)
      else
        retryLoop statuses max_retries env (tries + 1) (k + 1) (scope_pool p .connBroken)
  | .sockErr =>
      if _h : tries + 1 > max_retries then
        (.sockRaise (k + 1), scope_pool p .otherExc)
      else
        retryLoop statuses max_retries env (tries + 1) (k + 1) (scope_pool p .otherExc)
  | .clientErr s =>
      if _h : s ∈ statuses ∧ tries + 1 ≤ max_retries then
        retryLoop statuses max_retries env (tries + 1) (k + 1) (scope_pool p .otherExc)
      else
        (.clientRaise s (k + 1), scope_pool p .otherExc)
termination_by max_retries + 1 - tries
decreasing_by
  all_goals omega

/-- `Worker.ignoring_http_responses(statuses, fn, call_info, ...)`:
the retry loop entered with `tries = 0` before the first
invocation. -/
def ignoring_http_responses (statuses : List Nat) (max_retries : Nat)
    (env : Nat → FnOutcome ρ) (p : PoolState) : RetryOut ρ × PoolState :=
  retryLoop statuses max_retries env 0 0 p

/-- Pointwise replacement of connection faults by falsy results in an
invocation oracle (used to state that to the retry loop a swallowed
connection fault is indistinguishable from an empty result). -/
def faultAsEmpty (env : Nat → FnOutcome ρ) : Nat → FnOutcome ρ :=
  fun n =>
    match env n with
    | .connFault => .empty
    | o => o

/-! ### Exceptions, jobs, and result records -/

/-- The exceptions that flow through the engine: the
results-exhausted `Exception` raised by the retry loop, a
`socket.error`, a `client.ClientException` carrying an HTTP status,
the `NameError` for an unknown job type, and any other handler
exception (with its description). -/
inductive Exc where
  | exhausted (fnName : String) (maxRetries : Nat)
  | sockError
  | clientException (httpStatus : Nat)
  | nameError (jobType : String)
  | other (desc : String)
deriving DecidableEq, Repr

/-- `repr(e)` of an embedded exception: an opaque rendering, injective
per constructor, used for the `exception` field of failure results. -/
def reprExc : Exc → String
  | .exhausted fnName maxRetries =>
      "Exception(No fn_results for " ++ fnName ++ " after " ++ toString maxRetries ++ " retries)"
  | .sockError => "error(socket)"
  | .clientException httpStatus => "ClientException(http_status=" ++ toString httpStatus ++ ")"
  | .nameError jobType => "NameError(Unknown job type " ++ jobType ++ ")"
  | .other desc => desc

/-- `traceback.format_exc()` at the dispatch boundary: a captured
stack trace rendering that names the exception. -/
def format_exc (e : Exc) : String :=
  "Traceback (most recent call last): " ++ reprExc e

/-- One job message, after `msgpack.loads`: its type name, endpoint,
credential and object identity, the payload size (used by
upload/update), and the `noop` flag (`job_data.get('noop', False)`;
absence of the key is modelled as `false`). -/
structure Job where
  type : String
  storage_url : String
  token : String
  container : String
  name : String
  size : Nat
  noop : Bool
deriving DecidableEq, Repr

/-- The job message as the dict the handlers and `put_results`
receive. -/
def Job.toDict (j : Job) : Dict :=
  [("type", Val.vStr j.type), ("storage_url", Val.vStr j.storage_url),
   ("token", Val.vStr j.token), ("container", Val.vStr j.container),
   ("name", Val.vStr j.name), ("size", Val.vNat j.size), ("noop", Val.vBool j.noop)]

/-- Per-worker context: the worker id and the (opaque) completion
timestamp that `put_results` stamps on every result, and the
configured `max_retries`. -/
structure Ctx where
  worker_id : Nat
  completed_at : Nat
  max_retries : Nat
deriving DecidableEq, Repr

/-- `Worker.put_results(*args, **kwargs)`: the result record pushed
onto the result queue, `add_dicts(*args, completed_at=...,
worker_id=..., **kwargs)`. -/
def put_results (ctx : Ctx) (args : List Dict) (kwargs : Dict) : Dict :=
  add_dicts args
    (("completed_at", Val.vNat ctx.completed_at) ::
     ("worker_id", Val.vNat ctx.worker_id) :: kwargs)

/-- Response metadata: a headers-like key/value map. -/
abbrev Headers := List (String × String)

/-- `resp_headers.get(key, None)`. -/
def hGet (h : Headers) (k : String) : Option String :=
  (h.find? (fun q => q.1 = k)).map (fun q => q.2)

/-- A header value or Python `None`, as a result-record value. -/
def optSVal : Option String → Val
  | some v => Val.vStr v
  | Option.none => Val.vNone

/-- `Worker._put_results_from_response(object_info, resp_headers)`:
the success result, enriched with first-byte latency, last-byte
latency and transaction id from the response headers (null when the
header is absent). -/
def put_results_from_response (ctx : Ctx) (object_info : Job) (resp_headers : Headers) : Dict :=
  put_results ctx [object_info.toDict]
    [("first_byte_latency", optSVal (hGet resp_headers "x-swiftstack-first-byte-latency")),
     ("last_byte_latency", optSVal (hGet resp_headers "x-swiftstack-last-byte-latency")),
     ("trans_id", optSVal (hGet resp_headers "x-trans-id"))]

/-- The failure result the dispatcher emits when a handler raises:
`put_results(job_data, exception=repr(e),
traceback=traceback.format_exc())`. -/
def dispatch_failure_result (ctx : Ctx) (j : Job) (e : Exc) : Dict :=
  put_results ctx [j.toDict]
    [("exception", Val.vStr (reprExc e)), ("traceback", Val.vStr (format_exc e))]

/-! ### Job handlers -/

/-- What one handler invocation does: emit its (single) result record
onto the result queue, or let an exception escape to the dispatch
boundary. -/
inductive HandlerRes where
  | emit (result : Dict)
  | raised (e : Exc)
deriving DecidableEq, Repr

/-- Shared tail of the storage handlers: on a truthy retry-loop
result, emit the `_put_results_from_response` enrichment of its
headers (`headersOf` projects the headers out of the operation's
return value); on a raise, let the corresponding exception
escape. -/
def handler_res_of (ctx : Ctx) (object_info : Job) (fnName : String)
    (headersOf : ρ → Headers) : RetryOut ρ → HandlerRes
  | .ok v _ => .emit (put_results_from_response ctx object_info (headersOf v))
  | .exhaustedRaise _ => .raised (.exhausted fnName ctx.max_retries)
  | .sockRaise _ => .raised .sockError
  | .clientRaise s _ => .raised (.clientException s)

/-- `Worker.handle_noop`: a success result with zero latencies and no
transaction id, no I/O. -/
def handle_noop (ctx : Ctx) (object_info : Job) : Dict :=
  put_results ctx [object_info.toDict]
    [("first_byte_latency", Val.vFloatZero),
     ("last_byte_latency", Val.vFloatZero),
     ("trans_id", Val.vNone)]

/-- The arguments `handle_upload_object` passes to the retry loop for
`client.put_object`: the identity fields of the job plus
`content_length` and the synthetic-payload reader, with the
retryable status set `(503,)`. -/
structure UploadCall where
  statuses : List Nat
  url : String
  token : String
  container : String
  name : String
  content_length : Nat
  contents : ChunkedReader
deriving DecidableEq, Repr

/-- The storage call constructed by `handle_upload_object` for a
given fill letter. -/
def upload_call (object_info : Job) (letter : Char) : UploadCall :=
  { statuses := [503], url := object_info.storage_url, token := object_info.token,
    container := object_info.container, name := object_info.name,
    content_length := object_info.size,
    contents := ChunkedReader.init letter object_info.size }

/-- A storage-handler invocation together with the call it makes. -/
structure UploadRun where
  call : UploadCall
  run : HandlerRes
deriving DecidableEq, Repr

/-- `Worker.handle_upload_object(object_info, letter='A')`: a PUT of
a `ChunkedReader(letter, size)` payload through the retry loop with
retryable statuses `(503,)`, then `_put_results_from_response` on the
returned headers. -/
def handle_upload_object (ctx : Ctx) (env : Nat → FnOutcome Headers) (p : PoolState)
    (object_info : Job) (letter : Char := 'A') : UploadRun :=
  { call := upload_call object_info letter,
    run := handler_res_of ctx object_info "put_object" id
      (ignoring_http_responses [503] ctx.max_retries env p).1 }

/-- `Worker.handle_update_object(object_info)`: exactly
`handle_upload_object(object_info, letter='B')`. -/
def handle_update_object (ctx : Ctx) (env : Nat → FnOutcome Headers) (p : PoolState)
    (object_info : Job) : UploadRun :=
  handle_upload_object ctx env p object_info 'B'

/-- `Worker.handle_delete_object`: a DELETE through the retry loop
with retryable statuses `(404, 503)`. -/
def handle_delete_object (ctx : Ctx) (env : Nat → FnOutcome Headers) (p : PoolState)
    (object_info : Job) : HandlerRes :=
  handler_res_of ctx object_info "delete_object" id
    (ignoring_http_responses [404, 503] ctx.max_retries env p).1

/-- `Worker.handle_get_object`: a GET (body tossed) through the retry
loop with retryable statuses `(404, 503)`; the operation returns a
`(headers, body_iter)` pair and the result is enriched from the
headers component. -/
def handle_get_object (ctx : Ctx) (env : Nat → FnOutcome (Headers × String)) (p : PoolState)
    (object_info : Job) : HandlerRes :=
  handler_res_of ctx object_info "get_object" Prod.fst
    (ignoring_http_responses [404, 503] ctx.max_retries env p).1

/-! ### Dispatch (`handle_job`), the engine loop, and pool provisioning -/

/-- The `handle_`-prefixed methods of `Worker` that the dispatcher's
`getattr` lookup can resolve: the five job handlers, and `handle_job`
itself, which the lookup finds for a job of nominal type `"job"`. -/
inductive HandlerId where
  | noop
  | upload
  | update
  | delete
  | get
  | job
deriving DecidableEq, Repr

/-- Handler resolution in `Worker.handle_job`: a job flagged
`noop` resolves to `handle_noop` regardless of its nominal type;
otherwise `getattr(self, 'handle_%s' % type, None)` over the
`handle_`-prefixed methods of `Worker` (`handle_noop`,
`handle_upload_object`, `handle_update_object`,
`handle_delete_object`, `handle_get_object`, and `handle_job`
itself: the lookup finds `self.handle_job` for a job of type
`"job"`, so such a job dispatches back into the dispatcher instead
of reaching the `NameError` branch); any other type finds no
handler. `getattr` is a single name lookup, so the order of the
equality tests is immaterial. -/
def resolveHandler (j : Job) : Option HandlerId :=
  if j.noop then some .noop
  else if j.type = "noop" then some .noop
  else if j.type = "upload_object" then some .upload
  else if j.type = "update_object" then some .update
  else if j.type = "delete_object" then some .delete
  else if j.type = "get_object" then some .get
  else if j.type = "job" then some .job
  else Option.none

/-- Outcome of one `handle_job` call: the results it pushed before
returning normally, or the exception it let propagate (which kills
only that job's greenlet). -/
inductive HandleJobOut where
  | done (results : List Dict)
  | fatal (e : Exc)
deriving DecidableEq, Repr

/-- The results a `handle_job` outcome pushed onto the result
queue. -/
def emittedOf : HandleJobOut → List Dict
  | .done rs => rs
  | .fatal _ => []

/-- `Worker.handle_job(job_data)` with the invocation of the resolved
handler abstracted as `run`: resolve a handler (or raise `NameError`
for an unknown type, emitting nothing); invoke it; if it raises any
exception, emit exactly one failure result with the exception's
`repr` and a formatted traceback, and return normally. -/
def handle_job (ctx : Ctx) (run : HandlerId → HandlerRes) (j : Job) : HandleJobOut :=
  match resolveHandler j with
  | Option.none => .fatal (.nameError j.type)
  | some h =>
    match run h with
    | .emit r => .done [r]
    | .raised e => .done [dispatch_failure_result ctx j e]

/-- The concrete wiring of `handle_job`'s handler invocation to the
embedded handlers, given oracles for the three storage-client
calls. -/
structure ClientEnv where
  put_object : Nat → FnOutcome Headers
  delete_object : Nat → FnOutcome Headers
  get_object : Nat → FnOutcome (Headers × String)

/-- Invoking the resolved handler on a job. For `HandlerId.job` the
source re-enters `handle_job` itself (unbounded self-recursion whose
eventual outcome — in CPython a `RecursionError` caught by an
enclosing frame's `except Exception` — depends on the interpreter's
stack limit), so that invocation's outcome is abstracted as the
`jobRecurse` argument. -/
def run_handler (ctx : Ctx) (cenv : ClientEnv) (p : PoolState) (j : Job)
    (jobRecurse : HandlerRes) : HandlerId → HandlerRes
  | .noop => .emit (handle_noop ctx j)
  | .upload => (handle_upload_object ctx cenv.put_object p j).run
  | .update => (handle_update_object ctx cenv.put_object p j).run
  | .delete => handle_delete_object ctx cenv.delete_object p j
  | .get => handle_get_object ctx cenv.get_object p j
  | .job => jobRecurse

/-- The intake loop's dispatch of a stream of jobs: each job is
handled in its own spawned greenlet, so every job is processed
independently of the outcomes of the previous ones. -/
def engine_run (ctx : Ctx) (runs : Job → HandlerId → HandlerRes) (jobs : List Job) :
    List HandleJobOut :=
  jobs.map (fun j => handle_job ctx (runs j) j)

/-- Lookup of `self.conn_pools[storage_url]`. -/
def lookupPool (pools : List (String × PoolState)) (url : String) : Option PoolState :=
  (pools.find? (fun q => q.1 = url)).map (fun q => q.2)

/-- The intake loop's lazy pool provisioning: on a storage url not in
`conn_pools`, create (and eagerly fill) a `ConnectionPool` of
capacity `concurrency` for it; otherwise leave the map unchanged. -/
def ensure_pool (concurrency : Nat) (pools : List (String × PoolState)) (url : String) :
    List (String × PoolState) :=
  if (lookupPool pools url).isSome then pools
  else pools ++ [(url, ConnectionPool.init concurrency)]

/-- One iteration of `Worker.go` for one received job: ensure the
endpoint's pool exists, then dispatch the job (`pool.spawn`); the
second component is the pool the job sees at dispatch time. -/
def go_step (concurrency : Nat) (pools : List (String × PoolState)) (job : Job) :
    List (String × PoolState) × Option PoolState :=
  let pools' := ensure_pool concurrency pools job.storage_url
  (pools', lookupPool pools' job.storage_url)

/-! ### Concrete fixtures used by the closed witness and
counterexample theorems -/

/-- A concrete get-type job. -/
def jx : Job :=
  { type := "get_object", storage_url := "http://swift.example/v1/AUTH_x", token := "tok",
    container := "cont", name := "obj", size := 0, noop := false }

/-- A concrete job carrying the `noop` flag with a nominal upload
type. -/
def jnoopx : Job :=
  { type := "upload_object", storage_url := "http://swift.example/v1/AUTH_x", token := "tok",
    container := "cont", name := "obj", size := 1024, noop := true }

/-- A concrete job of an unknown type. -/
def junknownx : Job :=
  { type := "frobnicate", storage_url := "http://swift.example/v1/AUTH_x", token := "tok",
    container := "cont", name := "obj", size := 0, noop := false }

/-- A concrete worker context. -/
def cx : Ctx :=
  { worker_id := 7, completed_at := 1000, max_retries := 3 }

/-- Concrete response headers. -/
def hx : Headers :=
  [("x-swiftstack-first-byte-latency", "0.01"), ("x-trans-id", "txn-1")]

/-! ### Helper lemmas -/

theorem dictGet_dictSet_self (d : Dict) (k : String) (v : Val) :
    dictGet (dictSet d k v) k = some v := by
  induction d with
  | nil => simp [dictSet, dictGet]
  | cons hd tl ih =>
    obtain ⟨k', v'⟩ := hd
    by_cases h : k' = k
    · simp [dictSet, dictGet, h]
    · simp [dictSet, dictGet, h, ih]

theorem dictGet_dictSet_ne (d : Dict) (k k' : String) (v : Val) (h : k' ≠ k) :
    dictGet (dictSet d k v) k' = dictGet d k' := by
  have hk : k ≠ k' := fun hh => h hh.symm
  induction d with
  | nil => simp [dictSet, dictGet, hk]
  | cons hd tl ih =>
    obtain ⟨k0, v0⟩ := hd
    by_cases h0 : k0 = k
    · subst h0
      simp [dictSet, dictGet, hk]
    · simp [dictSet, dictGet, h0, ih]

theorem retryLoop_ok {ρ : Type} {S : List Nat} {m : Nat} {env : Nat → FnOutcome ρ}
    {t k : Nat} {p : PoolState} {r : ρ} (h : env k = .ok r) :
    retryLoop S m env t k p = (.ok r (k + 1), scope_pool p .normal) := by
  rw [retryLoop.eq_def, h]

theorem retryLoop_empty_stop {ρ : Type} {S : List Nat} {m : Nat} {env : Nat → FnOutcome ρ}
    {t k : Nat} {p : PoolState} (h : env k = .empty) (hm : t + 1 > m) :
    retryLoop S m env t k p = (.exhaustedRaise (k + 1), scope_pool p .normal) := by
  rw [retryLoop.eq_def, h]
  dsimp only
  rw [dif_pos hm]

theorem retryLoop_empty_retry {ρ : Type} {S : List Nat} {m : Nat} {env : Nat → FnOutcome ρ}
    {t k : Nat} {p : PoolState} (h : env k = .empty) (hm : t + 1 ≤ m) :
    retryLoop S m env t k p = retryLoop S m env (t + 1) (k + 1) (scope_pool p .normal) := by
  rw [retryLoop.eq_def, h]
  dsimp only
  rw [dif_neg (by omega)]

theorem retryLoop_connFault_stop {ρ : Type} {S : List Nat} {m : Nat} {env : Nat → FnOutcome ρ}
    {t k : Nat} {p : PoolState} (h : env k = .connFault) (hm : t + 1 > m) :
    retryLoop S m env t k p = (.exhaustedRaise (k + 1), scope_pool p .connBroken) := by
  rw [retryLoop.eq_def, h]
  dsimp only
  rw [dif_pos hm]

theorem retryLoop_connFault_retry {ρ : Type} {S : List Nat} {m : Nat} {env : Nat → FnOutcome ρ}
    {t k : Nat} {p : PoolState} (h : env k = .connFault) (hm : t + 1 ≤ m) :
    retryLoop S m env t k p = retryLoop S m env (t + 1) (k + 1) (scope_pool p .connBroken) := by
  rw [retryLoop.eq_def, h]
  dsimp only
  rw [dif_neg (by omega)]

theorem retryLoop_sock_stop {ρ : Type} {S : List Nat} {m : Nat} {env : Nat → FnOutcome ρ}
    {t k : Nat} {p : PoolState} (h : env k = .sockErr) (hm : t + 1 > m) :
    retryLoop S m env t k p = (.sockRaise (k + 1), scope_pool p .otherExc) := by
  rw [retryLoop.eq_def, h]
  dsimp only
  rw [dif_pos hm]

theorem retryLoop_sock_retry {ρ : Type} {S : List Nat} {m : Nat} {env : Nat → FnOutcome ρ}
    {t k : Nat} {p : PoolState} (h : env k = .sockErr) (hm : t + 1 ≤ m) :
    retryLoop S m env t k p = retryLoop S m env (t + 1) (k + 1) (scope_pool p .otherExc) := by
  rw [retryLoop.eq_def, h]
  dsimp only
  rw [dif_neg (by omega)]

theorem retryLoop_client_stop {ρ : Type} {S : List Nat} {m : Nat} {env : Nat → FnOutcome ρ}
    {t k : Nat} {p : PoolState} {s : Nat} (h : env k = .clientErr s)
    (hm : ¬(s ∈ S ∧ t + 1 ≤ m)) :
    retryLoop S m env t k p = (.clientRaise s (k + 1), scope_pool p .otherExc) := by
  rw [retryLoop.eq_def, h]
  dsimp only
  rw [dif_neg hm]

theorem retryLoop_client_retry {ρ : Type} {S : List Nat} {m : Nat} {env : Nat → FnOutcome ρ}
    {t k : Nat} {p : PoolState} {s : Nat} (h : env k = .clientErr s)
    (hs : s ∈ S) (hm : t + 1 ≤ m) :
    retryLoop S m env t k p = retryLoop S m env (t + 1) (k + 1) (scope_pool p .otherExc) := by
  rw [retryLoop.eq_def, h]
  dsimp only
  rw [dif_pos (show s ∈ S ∧ t + 1 ≤ m from And.intro hs hm)]

theorem format_exc_ne_empty (e : Exc) : format_exc e ≠ "" := by
  intro h
  have hl : (format_exc e).length = 0 := by rw [h]; rfl
  rw [format_exc, String.length_append] at hl
  have hpre : ("Traceback (most recent call last): " : String).length = 35 := rfl
  omega

theorem retryLoop_all_empty {ρ : Type} (S : List Nat) (m : Nat) (env : Nat → FnOutcome ρ)
    (hall : ∀ n, env n = .empty) :
    ∀ d t k p, t + d = m → (retryLoop S m env t k p).1 = .exhaustedRaise (k + d + 1) := by
  intro d
  induction d with
  | zero =>
    intro t k p ht
    rw [retryLoop_empty_stop (hall k) (by omega)]
  | succ d ih =>
    intro t k p ht
    rw [retryLoop_empty_retry (hall k) (by omega)]
    rw [ih (t + 1) (k + 1) (scope_pool p .normal) (by omega)]
    congr 1
    omega

theorem retryLoop_invocations_ge {ρ : Type} (S : List Nat) (m : Nat) (env : Nat → FnOutcome ρ) :
    ∀ d t k p, m + 1 - t ≤ d →
      k + 1 ≤ ((retryLoop S m env t k p).1).invocations := by
  intro d
  induction d with
  | zero =>
    intro t k p hd
    cases henv : env k with
    | ok r => rw [retryLoop_ok henv]; simp [RetryOut.invocations]
    | empty => rw [retryLoop_empty_stop henv (by omega)]; simp [RetryOut.invocations]
    | sockErr => rw [retryLoop_sock_stop henv (by omega)]; simp [RetryOut.invocations]
    | connFault => rw [retryLoop_connFault_stop henv (by omega)]; simp [RetryOut.invocations]
    | clientErr s =>
      rw [retryLoop_client_stop henv (by omega)]
      simp [RetryOut.invocations]
  | succ d ih =>
    intro t k p hd
    cases henv : env k with
    | ok r => rw [retryLoop_ok henv]; simp [RetryOut.invocations]
    | empty =>
      by_cases hm : t + 1 > m
      · rw [retryLoop_empty_stop henv hm]; simp [RetryOut.invocations]
      · rw [retryLoop_empty_retry henv (by omega)]
        have := ih (t + 1) (k + 1) (scope_pool p .normal) (by omega)
        omega
    | sockErr =>
      by_cases hm : t + 1 > m
      · rw [retryLoop_sock_stop henv hm]; simp [RetryOut.invocations]
      · rw [retryLoop_sock_retry henv (by omega)]
        have := ih (t + 1) (k + 1) (scope_pool p .otherExc) (by omega)
        omega
    | connFault =>
      by_cases hm : t + 1 > m
      · rw [retryLoop_connFault_stop henv hm]; simp [RetryOut.invocations]
      · rw [retryLoop_connFault_retry henv (by omega)]
        have := ih (t + 1) (k + 1) (scope_pool p .connBroken) (by omega)
        omega
    | clientErr s =>
      by_cases hg : s ∈ S ∧ t + 1 ≤ m
      · rw [retryLoop_client_retry henv hg.1 hg.2]
        have := ih (t + 1) (k + 1) (scope_pool p .otherExc) (by omega)
        omega
      · rw [retryLoop_client_stop henv hg]; simp [RetryOut.invocations]

theorem retryLoop_fault_as_empty {ρ : Type} (S : List Nat) (m : Nat) (env : Nat → FnOutcome ρ) :
    ∀ d t k p q, m + 1 - t ≤ d →
      (retryLoop S m env t k p).1 = (retryLoop S m (faultAsEmpty env) t k q).1 := by
  intro d
  induction d with
  | zero =>
    intro t k p q hd
    cases henv : env k with
    | ok r =>
      rw [retryLoop_ok henv, retryLoop_ok (show faultAsEmpty env k = .ok r by
        simp [faultAsEmpty, henv])]
    | empty =>
      rw [retryLoop_empty_stop henv (by omega),
        retryLoop_empty_stop (show faultAsEmpty env k = .empty by
          simp [faultAsEmpty, henv]) (by omega)]
    | sockErr =>
      rw [retryLoop_sock_stop henv (by omega),
        retryLoop_sock_stop (show faultAsEmpty env k = .sockErr by
          simp [faultAsEmpty, henv]) (by omega)]
    | connFault =>
      rw [retryLoop_connFault_stop henv (by omega),
        retryLoop_empty_stop (show faultAsEmpty env k = .empty by
          simp [faultAsEmpty, henv]) (by omega)]
    | clientErr s =>
      rw [retryLoop_client_stop henv (by omega),
        retryLoop_client_stop (show faultAsEmpty env k = .clientErr s by
          simp [faultAsEmpty, henv]) (by omega)]
  | succ d ih =>
    intro t k p q hd
    cases henv : env k with
    | ok r =>
      rw [retryLoop_ok henv, retryLoop_ok (show faultAsEmpty env k = .ok r by
        simp [faultAsEmpty, henv])]
    | empty =>
      have he : faultAsEmpty env k = .empty := by simp [faultAsEmpty, henv]
      by_cases hm : t + 1 > m
      · rw [retryLoop_empty_stop henv hm, retryLoop_empty_stop he hm]
      · rw [retryLoop_empty_retry henv (by omega), retryLoop_empty_retry he (by omega)]
        exact ih (t + 1) (k + 1) _ _ (by omega)
    | sockErr =>
      have he : faultAsEmpty env k = .sockErr := by simp [faultAsEmpty, henv]
      by_cases hm : t + 1 > m
      · rw [retryLoop_sock_stop henv hm, retryLoop_sock_stop he hm]
      · rw [retryLoop_sock_retry henv (by omega), retryLoop_sock_retry he (by omega)]
        exact ih (t + 1) (k + 1) _ _ (by omega)
    | connFault =>
      have he : faultAsEmpty env k = .empty := by simp [faultAsEmpty, henv]
      by_cases hm : t + 1 > m
      · rw [retryLoop_connFault_stop henv hm, retryLoop_empty_stop he hm]
      · rw [retryLoop_connFault_retry henv (by omega), retryLoop_empty_retry he (by omega)]
        exact ih (t + 1) (k + 1) _ _ (by omega)
    | clientErr s =>
      have he : faultAsEmpty env k = .clientErr s := by simp [faultAsEmpty, henv]
      by_cases hg : s ∈ S ∧ t + 1 ≤ m
      · rw [retryLoop_client_retry henv hg.1 hg.2, retryLoop_client_retry he hg.1 hg.2]
        exact ih (t + 1) (k + 1) _ _ (by omega)
      · rw [retryLoop_client_stop henv hg, retryLoop_client_stop he hg]

theorem lookupPool_append_self (pools : List (String × PoolState)) (url : String) (P : PoolState)
    (h : lookupPool pools url = Option.none) :
    lookupPool (pools ++ [(url, P)]) url = some P := by
  induction pools with
  | nil => simp [lookupPool, List.find?]
  | cons hd tl ih =>
    obtain ⟨u, Q⟩ := hd
    by_cases hu : u = url
    · exfalso
      simp [lookupPool, List.find?, hu] at h
    · have h' : lookupPool tl url = Option.none := by
        simpa [lookupPool, List.find?, hu] using h
      simpa [lookupPool, List.find?, hu] using ih h'

/-! ### Claim theorems -/

/-- C10: for every `ChunkedReader` constructed with a fill letter and
a size, and every requested chunk size `n`, `read n` returns exactly
`min n (2 ^ 21)` repetitions of the fill letter, and the returned
data is independent of the constructed size. The reader holds no
position and is never mutated by `read` (in the source, `read`
touches no state, so it is embedded as a pure function of the
constructor arguments), hence the data is also independent of any
previous reads. -/
theorem chunked_reader_read_spec (letter : Char) (size size2 n : Nat) :
    (ChunkedReader.init letter size).read n = List.replicate (min n (2 ^ 21)) letter
    ∧ (ChunkedReader.init letter size).read n = (ChunkedReader.init letter size2).read n := by
  constructor
  · rw [ChunkedReader.init, ChunkedReader.read]
    exact List.take_replicate letter n (2 ^ 21)
  · rfl

/-- C2: when the wrapped operation returns a falsy/empty result on
every invocation, `ignoring_http_responses` with configured maximum
`N` invokes the operation exactly `N + 1` times and then raises the
results-exhausted failure; the single terminal outcome means no
raise occurred on any earlier attempt. -/
theorem ignoring_http_responses_empty_exhausts {ρ : Type} (statuses : List Nat) (N : Nat)
    (env : Nat → FnOutcome ρ) (p : PoolState) (hall : ∀ n, env n = .empty) :
    (ignoring_http_responses statuses N env p).1 = .exhaustedRaise (N + 1) := by
  have h := retryLoop_all_empty statuses N env hall N 0 0 p (by omega)
  simpa [ignoring_http_responses] using h

/-- Witness for C2 at `N = 2`: three invocations, then exhaustion. -/
theorem ignoring_http_responses_empty_exhausts_witness :
    (ignoring_http_responses [] 2 (fun _ => (FnOutcome.empty : FnOutcome Headers))
      (ConnectionPool.init 3)).1 = .exhaustedRaise 3 :=
  ignoring_http_responses_empty_exhausts [] 2 _ (ConnectionPool.init 3) (fun _ => rfl)

/-- C3: when the first invocation raises a storage-client error with
status `s`, the executor re-raises it after exactly one attempt when
`s` is not in the caller-supplied retryable set; likewise after
exactly one attempt when `s` is retryable but no attempts remain
(`N = 0`); and when `s` is retryable and attempts remain, a retry
occurs (at least two invocations happen). -/
theorem ignoring_http_responses_client_error_policy {ρ : Type} (statuses : List Nat)
    (N : Nat) (env : Nat → FnOutcome ρ) (p : PoolState) (s : Nat)
    (h0 : env 0 = .clientErr s) :
    (s ∉ statuses → (ignoring_http_responses statuses N env p).1 = .clientRaise s 1)
    ∧ (s ∈ statuses → N = 0 →
        (ignoring_http_responses statuses N env p).1 = .clientRaise s 1)
    ∧ (s ∈ statuses → 1 ≤ N →
        2 ≤ ((ignoring_http_responses statuses N env p).1).invocations) := by
  refine ⟨?_, ?_, ?_⟩
  · intro hs
    rw [ignoring_http_responses, retryLoop_client_stop h0 (fun hc => hs hc.1)]
  · intro _ hN
    subst hN
    rw [ignoring_http_responses, retryLoop_client_stop h0 (fun hc => by omega)]
  · intro hs hN
    rw [ignoring_http_responses, retryLoop_client_retry h0 hs (by omega)]
    exact retryLoop_invocations_ge statuses N env N 1 1 _ (by omega)

/-- Witness for C3: a 404 against retryable set `(503,)` is re-raised
after exactly one attempt even with retries remaining. -/
theorem ignoring_http_responses_client_error_policy_witness :
    (ignoring_http_responses [503] 5 (fun _ => (FnOutcome.clientErr 404 : FnOutcome Headers))
      (ConnectionPool.init 1)).1 = .clientRaise 404 1 :=
  (ignoring_http_responses_client_error_policy [503] 5 _ (ConnectionPool.init 1) 404 rfl).1
    (by decide)

/-- C6 is false as stated: a connection fault during an invocation
does change the number of attempts counted by the retry loop, and
can change the reported outcome. With `max_retries = 1` the same
always-succeeding operation takes 1 invocation without a fault but 2
invocations when the first borrowed connection breaks; and with
`max_retries = 0` a single connection fault turns the run into a
results-exhausted failure although the storage operation itself
never returned a result or raised. -/
theorem conn_fault_changes_attempt_count :
    (ignoring_http_responses [] 1
      (fun n => match n with
        | 0 => FnOutcome.connFault
        | _ + 1 => FnOutcome.ok ([("x-trans-id", "txn")] : Headers))
      (ConnectionPool.init 2)).1 = .ok [("x-trans-id", "txn")] 2
    ∧ (ignoring_http_responses [] 1
        (fun _ => FnOutcome.ok ([("x-trans-id", "txn")] : Headers))
        (ConnectionPool.init 2)).1 = .ok [("x-trans-id", "txn")] 1
    ∧ (ignoring_http_responses [] 0
        (fun _ => (FnOutcome.connFault : FnOutcome Headers))
        (ConnectionPool.init 2)).1 = .exhaustedRaise 1 := by
  refine ⟨?_, ?_, ?_⟩
  · rw [ignoring_http_responses, retryLoop_connFault_retry rfl (by omega)]
    have h1 : (fun n => match n with
        | 0 => FnOutcome.connFault
        | _ + 1 => FnOutcome.ok ([("x-trans-id", "txn")] : Headers)) (0 + 1)
        = FnOutcome.ok ([("x-trans-id", "txn")] : Headers) := rfl
    rw [retryLoop_ok h1]
  · have h1 : (fun _ : Nat => FnOutcome.ok ([("x-trans-id", "txn")] : Headers)) 0
        = FnOutcome.ok ([("x-trans-id", "txn")] : Headers) := rfl
    rw [ignoring_http_responses, retryLoop_ok h1]
  · rw [ignoring_http_responses, retryLoop_connFault_stop rfl (by omega)]

/-- C6 (amended): a broken/half-closed connection condition arising
while the wrapped operation uses a borrowed connection is absorbed
inside the pool by discard-and-replace — the connection exception
itself never propagates out of the scoped context — but to the retry
loop the faulted invocation is exactly an invocation that produced
no result: the executor's terminal outcome equals that of the same
oracle with every connection fault replaced by an empty result
(whatever the pool states), so the fault is counted as a failed
attempt and can change the attempt count and the reported
outcome. -/
theorem conn_fault_absorbed_and_counted {ρ : Type} (S : List Nat) (m : Nat)
    (env : Nat → FnOutcome ρ) (p q : PoolState) :
    (ignoring_http_responses S m env p).1
      = (ignoring_http_responses S m (faultAsEmpty env) q).1
    ∧ (∀ pb, (connection_scope pb .connBroken).raised = false) := by
  constructor
  · exact retryLoop_fault_as_empty S m env (m + 1) 0 0 p q (by omega)
  · intro pb
    cases hp : pb.avail with
    | nil => simp [connection_scope, hp]
    | cons hc rest => simp [connection_scope, hp]

/-- C4: for every use of the scoped connection context on a non-empty
pool, exactly one connection is returned on every exit path (normal
completion, broken-connection fault, or any other exception); the
pool's available count and capacity are preserved, so the size never
exceeds and never permanently shrinks below the configured capacity;
and on a broken-connection fault the borrowed connection is closed
and discarded while a freshly created replacement (an id not
previously in the pool) is returned instead; on the other paths the
borrowed connection itself is returned. -/
theorem connection_scope_balanced (p : PoolState) (b : BodyEnd) (hc : Nat) (tl : List Nat)
    (h1 : p.avail = hc :: tl) (h2 : ∀ c ∈ p.avail, c < p.nextId) :
    ((connection_scope p b).returned).length = 1
    ∧ ((connection_scope p b).pool).avail.length = p.avail.length
    ∧ ((connection_scope p b).pool).capacity = p.capacity
    ∧ (p.avail.length ≤ p.capacity → ((connection_scope p b).pool).avail.length ≤ p.capacity)
    ∧ (b = .connBroken →
        (connection_scope p b).borrowed = some hc
        ∧ hc ∈ ((connection_scope p b).pool).closed
        ∧ (connection_scope p b).returned = [p.nextId]
        ∧ p.nextId ∉ p.avail
        ∧ p.nextId ∈ ((connection_scope p b).pool).avail)
    ∧ (b ≠ .connBroken → (connection_scope p b).returned = [hc]) := by
  have hnotin : p.nextId ∉ p.avail := fun hmem => absurd (h2 p.nextId hmem) (lt_irrefl _)
  cases b with
  | normal => simp [connection_scope, h1]
  | connBroken =>
    rw [h1] at hnotin
    simp only [List.mem_cons, not_or] at hnotin
    simp [connection_scope, h1, hnotin.1, hnotin.2]
  | otherExc => simp [connection_scope, h1]

/-- Witness for C4 on a freshly initialised pool of capacity 2 hit by
a broken-connection fault. -/
theorem connection_scope_balanced_witness :
    ((connection_scope (ConnectionPool.init 2) .connBroken).returned).length = 1
    ∧ (connection_scope (ConnectionPool.init 2) .connBroken).borrowed = some 0 := by
  have h := connection_scope_balanced (ConnectionPool.init 2) .connBroken 0 [1]
    (by decide) (by decide)
  exact ⟨h.1, (h.2.2.2.2.1 rfl).1⟩

/-- C8: on a job whose `storage_url` has no pool yet, the intake loop
creates that endpoint's pool with capacity equal to the configured
concurrency limit, pre-filled with exactly that many freshly created
connections, and the dispatched job sees that pool; on a job whose
`storage_url` is already known, the pool map is unchanged and the
existing pool is reused. -/
theorem go_step_pool_provisioning (concurrency : Nat) (pools : List (String × PoolState))
    (job : Job) :
    (lookupPool pools job.storage_url = Option.none →
      (go_step concurrency pools job).1
          = pools ++ [(job.storage_url, ConnectionPool.init concurrency)]
      ∧ (go_step concurrency pools job).2 = some (ConnectionPool.init concurrency)
      ∧ (ConnectionPool.init concurrency).avail.length = concurrency
      ∧ (ConnectionPool.init concurrency).capacity = concurrency)
    ∧ (∀ P, lookupPool pools job.storage_url = some P →
        (go_step concurrency pools job).1 = pools
        ∧ (go_step concurrency pools job).2 = some P) := by
  constructor
  · intro hnone
    refine ⟨?_, ?_, by simp [ConnectionPool.init], rfl⟩
    · simp [go_step, ensure_pool, hnone]
    · simp [go_step, ensure_pool, hnone,
        lookupPool_append_self pools job.storage_url (ConnectionPool.init concurrency) hnone]
  · intro P hsome
    simp [go_step, ensure_pool, hsome]

/-- Witness for C8: the first job against an empty pool map creates
an eagerly filled pool of capacity 4. -/
theorem go_step_pool_provisioning_witness :
    (go_step 4 [] jx).1 = [(jx.storage_url, ConnectionPool.init 4)]
    ∧ (ConnectionPool.init 4).avail.length = 4 := by
  have h := (go_step_pool_provisioning 4 [] jx).1 rfl
  exact ⟨h.1, h.2.2.1⟩

/-- C5: a job flagged as a no-op resolves to the no-op handler
regardless of its nominal type; otherwise the handler is resolved by
the job's type name over the `getattr` lookup (which, besides the
five job handlers, also finds `handle_job` itself for a job of type
`"job"` — such a job does not reach the `NameError` branch); and
when no handler matches the type, `handle_job` raises the
unknown-job-type `NameError` — a fatal outcome distinct from a
per-job failure result — and emits no result for that job. -/
theorem handle_job_dispatch_resolution (ctx : Ctx) (run : HandlerId → HandlerRes) (j : Job) :
    (j.noop = true → resolveHandler j = some .noop)
    ∧ (j.noop = false → j.type = "noop" → resolveHandler j = some .noop)
    ∧ (j.noop = false → j.type = "upload_object" → resolveHandler j = some .upload)
    ∧ (j.noop = false → j.type = "update_object" → resolveHandler j = some .update)
    ∧ (j.noop = false → j.type = "delete_object" → resolveHandler j = some .delete)
    ∧ (j.noop = false → j.type = "get_object" → resolveHandler j = some .get)
    ∧ (j.noop = false → j.type = "job" → resolveHandler j = some .job)
    ∧ (j.noop = false →
        j.type ∉ ["noop", "upload_object", "update_object", "delete_object", "get_object",
          "job"] →
        resolveHandler j = Option.none)
    ∧ (resolveHandler j = Option.none →
        handle_job ctx run j = .fatal (.nameError j.type)
        ∧ emittedOf (handle_job ctx run j) = []) := by
  refine ⟨?_, ?_, ?_, ?_, ?_, ?_, ?_, ?_, ?_⟩
  · intro hn; simp [resolveHandler, hn]
  · intro hn ht; simp [resolveHandler, hn, ht]
  · intro hn ht; simp [resolveHandler, hn, ht]
  · intro hn ht; simp [resolveHandler, hn, ht]
  · intro hn ht; simp [resolveHandler, hn, ht]
  · intro hn ht; simp [resolveHandler, hn, ht]
  · intro hn ht; simp [resolveHandler, hn, ht]
  · intro hn hm
    simp only [List.mem_cons, List.mem_singleton, not_or] at hm
    obtain ⟨h1, h2, h3, h4, h5, h6, -⟩ := hm
    simp [resolveHandler, hn, h1, h2, h3, h4, h5, h6]
  · intro hres
    simp [handle_job, hres, emittedOf]

/-- Witness for C5: a noop-flagged upload job resolves to the no-op
handler, and an unknown type is fatal with nothing emitted. -/
theorem handle_job_dispatch_resolution_witness :
    resolveHandler jnoopx = some .noop
    ∧ handle_job cx (fun _ => HandlerRes.emit []) junknownx = .fatal (.nameError "frobnicate")
    ∧ emittedOf (handle_job cx (fun _ => HandlerRes.emit []) junknownx) = [] := by
  refine ⟨?_, ?_, ?_⟩
  · exact (handle_job_dispatch_resolution cx (fun _ => HandlerRes.emit []) jnoopx).1 rfl
  · exact ((handle_job_dispatch_resolution cx (fun _ => HandlerRes.emit [])
      junknownx).2.2.2.2.2.2.2.2 (by decide)).1
  · exact ((handle_job_dispatch_resolution cx (fun _ => HandlerRes.emit [])
      junknownx).2.2.2.2.2.2.2.2 (by decide)).2

/-- C9: `handle_update_object job` is definitionally
`handle_upload_object job` with fill letter `'B'` — same storage
call, same retryable status set, same result — while
`handle_upload_object` defaults to fill letter `'A'`; the two calls
differ only in the fill letter of the synthetic payload (every field
of the constructed storage call is equal except the payload reader,
which uses letter `'B'` instead of `'A'`), and the emitted result
does not depend on the letter at all. -/
theorem update_equals_upload_letter_B (ctx : Ctx) (env : Nat → FnOutcome Headers)
    (p : PoolState) (oi : Job) :
    handle_update_object ctx env p oi = handle_upload_object ctx env p oi 'B'
    ∧ (handle_update_object ctx env p oi).run = (handle_upload_object ctx env p oi 'A').run
    ∧ (handle_update_object ctx env p oi).call.statuses = (upload_call oi 'A').statuses
    ∧ handle_upload_object ctx env p oi = handle_upload_object ctx env p oi 'A'
    ∧ (handle_update_object ctx env p oi).call
        = { upload_call oi 'A' with contents := ChunkedReader.init 'B' oi.size } := by
  exact ⟨rfl, rfl, rfl, rfl, rfl⟩

/-- C1: when the resolved handler raises any exception, `handle_job`
catches it and emits exactly one failure result carrying the
exception's `repr` and a non-empty captured stack trace, returns
normally (does not re-raise), and the engine processes the remaining
jobs of the stream regardless. -/
theorem handle_job_handler_exception (ctx : Ctx) (run : HandlerId → HandlerRes) (j : Job)
    (h : HandlerId) (e : Exc) (runs : Job → HandlerId → HandlerRes) (rest : List Job)
    (hres : resolveHandler j = some h) (hraise : run h = .raised e) :
    handle_job ctx run j = .done [dispatch_failure_result ctx j e]
    ∧ dictGet (dispatch_failure_result ctx j e) "exception" = some (Val.vStr (reprExc e))
    ∧ dictGet (dispatch_failure_result ctx j e) "traceback" = some (Val.vStr (format_exc e))
    ∧ format_exc e ≠ ""
    ∧ engine_run ctx runs (j :: rest) = handle_job ctx (runs j) j :: engine_run ctx runs rest := by
  refine ⟨?_, ?_, ?_, format_exc_ne_empty e, rfl⟩
  · simp [handle_job, hres, hraise]
  · simp only [dispatch_failure_result, put_results, add_dicts, dictUpdate,
      List.foldl_cons, List.foldl_nil]
    rw [dictGet_dictSet_ne _ _ _ _ (by decide), dictGet_dictSet_self]
  · simp only [dispatch_failure_result, put_results, add_dicts, dictUpdate,
      List.foldl_cons, List.foldl_nil]
    rw [dictGet_dictSet_self]

/-- Witness for C1: a get-type job whose handler raises produces
exactly the one failure result and `handle_job` returns normally. -/
theorem handle_job_handler_exception_witness :
    handle_job cx (fun _ => HandlerRes.raised (Exc.other "ValueError(boom)")) jx
      = .done [dispatch_failure_result cx jx (Exc.other "ValueError(boom)")] :=
  (handle_job_handler_exception cx _ jx .get (Exc.other "ValueError(boom)")
    (fun _ _ => HandlerRes.emit []) [] (by decide) rfl).1

/-- C7 is false as stated: the failure result the dispatcher emits
when a handler raises carries the exception description but none of
the three enrichment fields — at this concrete input,
`first_byte_latency`, `last_byte_latency` and `trans_id` are all
absent from the emitted failure result. -/
theorem failure_result_missing_enrichment :
    handle_job cx (fun _ => HandlerRes.raised (Exc.other "ValueError(boom)")) jx
      = .done [dispatch_failure_result cx jx (Exc.other "ValueError(boom)")]
    ∧ dictGet (dispatch_failure_result cx jx (Exc.other "ValueError(boom)"))
        "first_byte_latency" = Option.none
    ∧ dictGet (dispatch_failure_result cx jx (Exc.other "ValueError(boom)"))
        "last_byte_latency" = Option.none
    ∧ dictGet (dispatch_failure_result cx jx (Exc.other "ValueError(boom)"))
        "trans_id" = Option.none
    ∧ dictGet (dispatch_failure_result cx jx (Exc.other "ValueError(boom)"))
        "exception" = some (Val.vStr "ValueError(boom)") := by
  refine ⟨rfl, rfl, rfl, rfl, rfl⟩

/-- C7 (amended): every success result produced through
`_put_results_from_response` — which is how all four storage
handlers emit on success — carries the three enrichment fields
sourced from the response metadata when present and null otherwise;
the no-op handler's result carries them with fixed zero latencies
and null transaction id; but the failure result constructed at the
dispatch boundary carries the exception description and traceback
and none of the three enrichment fields. -/
theorem result_enrichment_fields (ctx : Ctx) (oi : Job) (h : Headers) (e : Exc)
    (hb : Headers × String) :
    dictGet (put_results_from_response ctx oi h) "first_byte_latency"
        = some (optSVal (hGet h "x-swiftstack-first-byte-latency"))
    ∧ dictGet (put_results_from_response ctx oi h) "last_byte_latency"
        = some (optSVal (hGet h "x-swiftstack-last-byte-latency"))
    ∧ dictGet (put_results_from_response ctx oi h) "trans_id"
        = some (optSVal (hGet h "x-trans-id"))
    ∧ (∀ env p letter, env 0 = FnOutcome.ok h →
        (handle_upload_object ctx env p oi letter).run
          = .emit (put_results_from_response ctx oi h))
    ∧ (∀ env p, env 0 = FnOutcome.ok h →
        handle_delete_object ctx env p oi = .emit (put_results_from_response ctx oi h))
    ∧ (∀ env p, env 0 = FnOutcome.ok hb →
        handle_get_object ctx env p oi = .emit (put_results_from_response ctx oi hb.1))
    ∧ dictGet (handle_noop ctx oi) "first_byte_latency" = some Val.vFloatZero
    ∧ dictGet (handle_noop ctx oi) "last_byte_latency" = some Val.vFloatZero
    ∧ dictGet (handle_noop ctx oi) "trans_id" = some Val.vNone
    ∧ dictGet (dispatch_failure_result ctx oi e) "first_byte_latency" = Option.none
    ∧ dictGet (dispatch_failure_result ctx oi e) "last_byte_latency" = Option.none
    ∧ dictGet (dispatch_failure_result ctx oi e) "trans_id" = Option.none := by
  refine ⟨?_, ?_, ?_, ?_, ?_, ?_, ?_, ?_, ?_, ?_, ?_, ?_⟩
  · simp only [put_results_from_response, put_results, add_dicts, dictUpdate,
      List.foldl_cons, List.foldl_nil]
    rw [dictGet_dictSet_ne _ _ _ _ (by decide), dictGet_dictSet_ne _ _ _ _ (by decide),
      dictGet_dictSet_self]
  · simp only [put_results_from_response, put_results, add_dicts, dictUpdate,
      List.foldl_cons, List.foldl_nil]
    rw [dictGet_dictSet_ne _ _ _ _ (by decide), dictGet_dictSet_self]
  · simp only [put_results_from_response, put_results, add_dicts, dictUpdate,
      List.foldl_cons, List.foldl_nil]
    rw [dictGet_dictSet_self]
  · intro env p letter henv
    have h1 : retryLoop [503] ctx.max_retries env 0 0 p = (.ok h 1, scope_pool p .normal) :=
      retryLoop_ok henv
    simp [handle_upload_object, ignoring_http_responses, h1, handler_res_of]
  · intro env p henv
    have h1 : retryLoop [404, 503] ctx.max_retries env 0 0 p = (.ok h 1, scope_pool p .normal) :=
      retryLoop_ok henv
    simp [handle_delete_object, ignoring_http_responses, h1, handler_res_of]
  · intro env p henv
    have h1 : retryLoop [404, 503] ctx.max_retries env 0 0 p = (.ok hb 1, scope_pool p .normal) :=
      retryLoop_ok henv
    simp [handle_get_object, ignoring_http_responses, h1, handler_res_of]
  · simp only [handle_noop, put_results, add_dicts, dictUpdate,
      List.foldl_cons, List.foldl_nil]
    rw [dictGet_dictSet_ne _ _ _ _ (by decide), dictGet_dictSet_ne _ _ _ _ (by decide),
      dictGet_dictSet_self]
  · simp only [handle_noop, put_results, add_dicts, dictUpdate,
      List.foldl_cons, List.foldl_nil]
    rw [dictGet_dictSet_ne _ _ _ _ (by decide), dictGet_dictSet_self]
  · simp only [handle_noop, put_results, add_dicts, dictUpdate,
      List.foldl_cons, List.foldl_nil]
    rw [dictGet_dictSet_self]
  · simp only [dispatch_failure_result, put_results, add_dicts, dictUpdate,
      List.foldl_cons, List.foldl_nil, Job.toDict]
    simp [dictGet_dictSet_ne, dictGet_dictSet_self, dictGet]
  · simp only [dispatch_failure_result, put_results, add_dicts, dictUpdate,
      List.foldl_cons, List.foldl_nil, Job.toDict]
    simp [dictGet_dictSet_ne, dictGet_dictSet_self, dictGet]
  · simp only [dispatch_failure_result, put_results, add_dicts, dictUpdate,
      List.foldl_cons, List.foldl_nil, Job.toDict]
    simp [dictGet_dictSet_ne, dictGet_dictSet_self, dictGet]

/-- Witness for C7 (amended): a delete succeeding on its first
attempt emits the enriched result, whose `trans_id` comes from the
response headers. -/
theorem result_enrichment_fields_witness :
    handle_delete_object cx (fun _ => FnOutcome.ok hx) (ConnectionPool.init 1) jx
      = .emit (put_results_from_response cx jx hx)
    ∧ dictGet (put_results_from_response cx jx hx) "trans_id"
      = some (optSVal (hGet hx "x-trans-id")) := by
  refine ⟨?_, ?_⟩
  · exact (result_enrichment_fields cx jx hx (Exc.other "x") (hx, "")).2.2.2.2.1
      (fun _ => FnOutcome.ok hx) (ConnectionPool.init 1) rfl
  · exact (result_enrichment_fields cx jx hx (Exc.other "x") (hx, "")).2.2.1
